import Mathlib

/-!
Shallow embedding of `src/ts/Data/Parsers/CSVDataParser.ts` (Highcharts data
layer CSV parser) and verification of its natural-language specification.

Modelling conventions:
* JavaScript strings are modelled as `List Char` at the scanning level; cells
  are produced as `String` via `String.mk`, matching the source which stores
  the accumulated token string into the column buffer.
* JavaScript `undefined` is modelled by `Option`: out-of-range string indexing
  (`s[j]` with `j` out of range) yields `none`, optional configuration fields
  are `Option` fields, array holes are `none` entries.
* The source's index-based scanning loops (`parseCSVRow`'s outer loop with its
  nested quoted-field `while`, and `guessDelimiter`'s per-line loop with its
  nested space-skipping `while`) advance a single cursor strictly left to
  right; they are embedded as structurally recursive scans over the remaining
  character list, with the one-character lookbehind (`cl`) carried in the scan
  mode and the lookahead (`cn`) read from the head of the remainder.
* The host-dependent numeric/date test in `guessDelimiter`
  (`!isNaN(Date.parse(token)) || isNaN(Number(token)) || !isFinite(Number(token))`)
  is abstracted as an explicit predicate parameter `p` on the trimmed token:
  the counter is bumped exactly when the combined disjunction holds, and every
  theorem below is proved for all such predicates.
-/

/-- JavaScript whitespace test used by `String.prototype.trim`, modelled with
`Char.isWhitespace` (space, tab, CR, LF), which covers the whitespace
characters exercised by this module. -/
def jsWS (c : Char) : Bool := c.isWhitespace

/-- Model of `String.prototype.trim` on the character list of a string. -/
def listTrim (l : List Char) : List Char :=
  ((l.dropWhile jsWS).reverse.dropWhile jsWS).reverse

/-- JavaScript truthiness of an optional string (`undefined` and `''` are falsy). -/
def strTruthy : Option String → Bool
  | none => false
  | some s => !(s == "")

/-- JavaScript `a || b` on optional string values. -/
def jsOrStr (a b : Option String) : Option String :=
  if strTruthy a then a else b

/-- JavaScript truthiness of an optional boolean. -/
def boolTruthy : Option Bool → Bool
  | none => false
  | some b => b

/-- JavaScript coercion of a possibly-`undefined` string value to a string,
as performed by `'' + x` in the source (`'' + undefined` is `"undefined"`). -/
def jsUndefStr : Option String → String
  | none => "undefined"
  | some s => s

/-- Recognized options of the CSV parser (`CSVDataParser.OptionsType`).
Every field that the TypeScript interface allows to be absent is an `Option`;
`decimalPoint` and `lineDelimiter` are required by `ClassJSONOptions` but can
still be absent before the defaults are merged in, hence also `Option`.
The `beforeParse` hook is function-valued and is passed to `parse` as a
separate argument below. -/
structure CSVOptions where
  csv : Option String := none
  startRow : Option Int := none
  endRow : Option Int := none
  startColumn : Option Int := none
  endColumn : Option Int := none
  itemDelimiter : Option String := none
  decimalPoint : Option String := none
  lineDelimiter : Option String := none
  firstRowAsNames : Option Bool := none
deriving DecidableEq, Repr

/-- One field of the Highcharts `merge(base, child)` used by the parser:
the child value wins whenever it is defined. -/
def mergeField (child base : Option α) : Option α :=
  match child with
  | some v => some v
  | none => base

/-- `merge(this.options, options)` as used by `parse`, field by field. -/
def mergeOptions (base child : CSVOptions) : CSVOptions where
  csv := mergeField child.csv base.csv
  startRow := mergeField child.startRow base.startRow
  endRow := mergeField child.endRow base.endRow
  startColumn := mergeField child.startColumn base.startColumn
  endColumn := mergeField child.endColumn base.endColumn
  itemDelimiter := mergeField child.itemDelimiter base.itemDelimiter
  decimalPoint := mergeField child.decimalPoint base.decimalPoint
  lineDelimiter := mergeField child.lineDelimiter base.lineDelimiter
  firstRowAsNames := mergeField child.firstRowAsNames base.firstRowAsNames

/-- `CSVDataParser.defaultOptions`: `decimalPoint: '.'`, `lineDelimiter: '\n'`.
The spread of `DataParser.defaultOptions` is outside `src/`; modelled from the
spec, which lists no further defaulted fields for the recognized options, so
the remaining fields stay absent. -/
def defaultOptions : CSVOptions :=
  { decimalPoint := some ".", lineDelimiter := some "\n" }

/-- The column buffer: `columns[c][r]` is the cell text of row `r` in column
`c`; a `none` entry is a hole left by a row that never wrote that index. -/
abbrev Columns := List (List (Option String))

/-- JavaScript array element assignment `arr[r] = v` on a cell array: in-range
assignment replaces the element, out-of-range assignment extends the array
with holes up to index `r`. -/
def jsSetArr (l : List (Option String)) (r : Nat) (v : String) : List (Option String) :=
  if r < l.length then l.set r (some v)
  else l ++ List.replicate (r - l.length) none ++ [some v]

/-- The comparison `startColumn > actualColumn` of `push`, where `startColumn`
may be `undefined` (any comparison against `undefined` is false). -/
def gtStart : Option Int → Nat → Bool
  | some v, a => (a : Int) < v
  | none, _ => false

/-- The comparison `actualColumn > endColumn` of `push`, where `endColumn`
may be `undefined` (any comparison against `undefined` is false). -/
def gtEnd : Nat → Option Int → Bool
  | a, some v => v < (a : Int)
  | _, none => false

/-- The inner `push` helper of `parseCSVRow`: flush the accumulated token as a
field. Outside the `[startColumn, endColumn]` window the token is discarded
but the actual-column counter still advances; otherwise the column buffer is
extended if needed and the token is written at `columns[column][rowNumber]`.
Returns the updated `(actualColumn, column, columns)`; the caller resets the
token, as the source does in both paths. -/
def push (sc ec : Option Int) (row : Nat) (token : List Char)
    (actual column : Nat) (cols : Columns) : Nat × Nat × Columns :=
  if gtStart sc actual || gtEnd actual ec then
    (actual + 1, column, cols)
  else
    let cols := if cols.length < column + 1 then cols ++ [[]] else cols
    (actual + 1, column + 1,
      cols.set column (jsSetArr (cols.getD column []) row (String.mk token)))

/-- Scan mode of the `parseCSVRow` character loop: either the outer
field-splitting loop, or the nested quoted-field `while` loop, which carries
the one-character lookbehind `cl`. -/
inductive RowMode where
  | outer : RowMode
  | quoted : Option Char → RowMode
deriving DecidableEq, Repr

/-- The character loop of `parseCSVRow` (source lines 234-269) as a single
left-to-right scan. In `outer` mode: `#` flushes the pending token and stops
(trailing comment), `"` enters the quoted sub-scan at the next character with
lookbehind `"` (the `read(++i)` of the source), the item delimiter flushes the
token, any other character is appended to the token. In `quoted cl` mode the
source's `while` runs: a `"` with neither neighbour a `"` is a closing quote
and the scan resumes in `outer` mode after it; otherwise the character is
appended unless it is the second half of an escaped `""` pair; reaching the
end of the line in either mode performs the source's final `push()`. -/
def rowScan (sc ec : Option Int) (delim : Option (List Char)) (row : Nat) :
    List Char → RowMode → List Char → Nat → Nat → Columns → Columns
  | [], _, token, actual, column, cols =>
    (push sc ec row token actual column cols).2.2
  | c :: rest, .outer, token, actual, column, cols =>
    if c = '#' then (push sc ec row token actual column cols).2.2
    else if c = '"' then
      rowScan sc ec delim row rest (.quoted (some '"')) token actual column cols
    else if delim = some [c] then
      let r := push sc ec row token actual column cols
      rowScan sc ec delim row rest .outer [] r.1 r.2.1 r.2.2
    else rowScan sc ec delim row rest .outer (token ++ [c]) actual column cols
  | c :: rest, .quoted cl, token, actual, column, cols =>
    if c = '"' ∧ cl ≠ some '"' ∧ rest.head? ≠ some '"' then
      rowScan sc ec delim row rest .outer token actual column cols
    else
      rowScan sc ec delim row rest (.quoted (some c))
        (if c ≠ '"' ∨ cl ≠ some '"' then token ++ [c] else token) actual column cols

/-- `parseCSVRow(columnStr, rowNumber)`: resolve the item delimiter as
`this.options.itemDelimiter || this.guessedItemDelimiter`, skip
whitespace-only lines and lines whose first non-whitespace character is `#`,
otherwise run the character scan. The column window is read from
`this.options` (`startColumn`, `endColumn`), as in the source. -/
def parseCSVRow (options : CSVOptions) (guessedItemDelimiter : Option String)
    (columnStr : List Char) (rowNumber : Nat) (columns : Columns) : Columns :=
  let itemDelimiter := (jsOrStr options.itemDelimiter guessedItemDelimiter).map String.data
  if (listTrim columnStr).length = 0 then columns
  else if (listTrim columnStr).head? = some '#' then columns
  else
    rowScan options.startColumn options.endColumn itemDelimiter rowNumber
      columnStr .outer [] 0 0 columns

/-- The row loop of `parse` (source lines 150-158) over the in-window lines.
A line whose character at index 0 is `#` increments the comment offset, which
is equivalent to keeping the next row number unchanged (the source passes
`rowIt - startRow - offset`); every other line is tokenized at the current row
number, which then advances. -/
def rowsLoop (options : CSVOptions) (guessed : Option String) :
    List (List Char) → Nat → Columns → Columns
  | [], _, cols => cols
  | l :: rest, rowNumber, cols =>
    if l.head? = some '#' then rowsLoop options guessed rest rowNumber cols
    else
      rowsLoop options guessed rest (rowNumber + 1)
        (parseCSVRow options guessed l rowNumber cols)

example : parseCSVRow { itemDelimiter := some "," } none "\"a,b\",c".data 0 []
    = [[some "a,b"], [some "c"]] := by decide

example : parseCSVRow { itemDelimiter := some "," } none "value,#comment".data 0 []
    = [[some "value"], [some ""]] := by decide

/-- Delimiter guess state of `guessDelimiter`: the three candidate-delimiter
counters `potDelimiters[','] / [';'] / ['\t']` and the global comma and
period counters used for decimal-separator inference. -/
structure SniffSt where
  potComma : Nat := 0
  potSemi : Nat := 0
  potTab : Nat := 0
  commas : Nat := 0
  points : Nat := 0
deriving DecidableEq, Repr

/-- `typeof potDelimiters[c] !== 'undefined'`: is `c` a candidate delimiter? -/
def isPotC (c : Char) : Bool := c == ',' || c == ';' || c == '\t'

/-- `potDelimiters[c]++` for a candidate delimiter character. -/
def bumpPotC (st : SniffSt) (c : Char) : SniffSt :=
  if c = ',' then { st with potComma := st.potComma + 1 }
  else if c = ';' then { st with potSemi := st.potSemi + 1 }
  else if c = '\t' then { st with potTab := st.potTab + 1 }
  else st

/-- The unconditional per-character counting at the end of the sniffer's loop
body: `if (c === ',') commas++; if (c === '.') points++;`. -/
def globalBump (c : Char) (st : SniffSt) : SniffSt :=
  let st := if c = ',' then { st with commas := st.commas + 1 } else st
  if c = '.' then { st with points := st.points + 1 } else st

/-- Scan mode of the sniffer's per-line loop: the ordinary scan carries the
one-character lookbehind `cl` and the `inStr` quoted-field flag; `blanks` is
the nested space-skipping `while` that runs after a closing quote. -/
inductive SniffMode where
  | scan : Option Char → Bool → SniffMode
  | blanks : SniffMode
deriving DecidableEq, Repr

/-- The per-line loop of `guessDelimiter` (source lines 304-360) as a single
left-to-right scan. `#` stops the line (comment). A `"` toggles the `inStr`
flag; on a true closing quote (neither neighbour is `"`) the source skips any
run of spaces in place and, if the next character is a candidate delimiter,
bumps its counter: when the next character is a space the nested `while` runs
and consumes up to and including the first non-space character (mode
`blanks`); when it is not, the `while` does not run and that character is
examined without being consumed, so the outer loop processes it again.
Outside quotes a candidate delimiter character bumps its counter when the
predicate `p` holds of the trimmed accumulated token, and resets the token;
any other character is appended to the token. Every character processed by
the outer loop additionally feeds the global comma/period counters. -/
def sniffLine (p : List Char → Bool) :
    List Char → SniffMode → List Char → SniffSt → SniffSt
  | [], _, _, st => st
  | c :: rest, .blanks, token, st =>
    if c = ' ' then sniffLine p rest .blanks token st
    else
      let st := if isPotC c then bumpPotC st c else st
      sniffLine p rest (.scan (some c) false) token st
  | c :: rest, .scan cl inStr, token, st =>
    if c = '#' then st
    else if c = '"' then
      if inStr then
        if cl ≠ some '"' ∧ rest.head? ≠ some '"' then
          match rest.head? with
          | some ' ' => sniffLine p rest .blanks token (globalBump c st)
          | cn =>
            let st :=
              match cn with
              | some d => if isPotC d then bumpPotC st d else st
              | none => st
            sniffLine p rest (.scan (some c) false) token (globalBump c st)
        else sniffLine p rest (.scan (some c) inStr) token (globalBump c st)
      else sniffLine p rest (.scan (some c) true) token (globalBump c st)
    else if isPotC c then
      let st := if p (listTrim token) then bumpPotC st c else st
      sniffLine p rest (.scan (some c) inStr) [] (globalBump c st)
    else sniffLine p rest (.scan (some c) inStr) (token ++ [c]) (globalBump c st)

/-- The line loop of `guessDelimiter`: only lines at index `i ≤ 13` are
examined (`if (i > 13) break`); each one is scanned with a fresh `inStr` flag
and token while the counters accumulate. -/
def sniffLines (p : List Char → Bool) (lines : List (List Char)) (st : SniffSt) : SniffSt :=
  (lines.take 14).foldl (fun st l => sniffLine p l (.scan none false) [] st) st

/-- Result of `guessDelimiter`: the returned guess, and the updates the call
performs on `this.guessedDecimalPoint` and `this.decimalRegex` (present only
when the configured decimal point was falsy). -/
structure GuessResult where
  guessed : String
  decimal : Option (String × String)
deriving DecidableEq, Repr

/-- `guessDelimiter(lines)` (source lines 278-394): count over the first 14
lines, then decide — `;` when its counter strictly exceeds the comma counter,
otherwise `,` when the comma counter strictly exceeds the semicolon counter,
otherwise `,` as the default. When `this.options.decimalPoint` is falsy, the
decimal separator guess is `.` exactly when the global period count strictly
exceeds the global comma count, and the decimal pattern string is built from
the configured (possibly absent) `decimalPoint`, not from the guess, so an
absent value is concatenated as `"undefined"`. -/
def guessDelimiter (p : List Char → Bool) (options : CSVOptions)
    (lines : List (List Char)) : GuessResult :=
  let st := sniffLines p lines {}
  let guessed := if st.potSemi > st.potComma then ";"
    else if st.potComma > st.potSemi then ","
    else ","
  let decimal :=
    if strTruthy options.decimalPoint then none
    else
      some ((if st.points > st.commas then "." else ","),
        "^(-?[0-9]+)" ++ jsUndefStr options.decimalPoint ++ "([0-9]+)$")
  ⟨guessed, decimal⟩

/-- `csv.replace(/\r\n/g, '\n')`: global left-to-right replacement of CRLF. -/
def replaceCRLF : List Char → List Char
  | '\r' :: '\n' :: rest => '\n' :: replaceCRLF rest
  | c :: rest => c :: replaceCRLF rest
  | [] => []

/-- `csv.replace(/\r/g, '\n')`: every remaining CR becomes LF. -/
def replaceCR (l : List Char) : List Char :=
  l.map fun c => if c = '\r' then '\n' else c

/-- Index of the first occurrence of `sep` in `s`, as used by string split. -/
def firstOcc (sep : List Char) : List Char → Option Nat
  | [] => none
  | c :: rest =>
    if (c :: rest).take sep.length = sep then some 0
    else (firstOcc sep rest).map (· + 1)

/-- Fuelled splitting on a non-empty separator; `s.length + 1` fuel suffices
since every step consumes at least one character. -/
def jsSplitFuel (sep : List Char) : Nat → List Char → List (List Char)
  | 0, s => [s]
  | fuel + 1, s =>
    match firstOcc sep s with
    | none => [s]
    | some i => s.take i :: jsSplitFuel sep fuel (s.drop (i + sep.length))

/-- JavaScript `s.split(sep)`: splitting on `undefined` yields the whole
string, splitting on the empty string yields the individual characters,
otherwise the string is cut at every occurrence of the separator. -/
def jsStringSplit (sep : Option (List Char)) (s : List Char) : List (List Char) :=
  match sep with
  | none => [s]
  | some [] => s.map fun c => [c]
  | some sep => jsSplitFuel sep (s.length + 1) s

/-- JavaScript array element assignment on the header list (`headers[i] = v`);
the out-of-range padding is unreachable here because header promotion assigns
indices `0, 1, …` in order. -/
def jsSetStrAt (l : List String) (i : Nat) (v : String) : List String :=
  if i < l.length then l.set i v else l ++ List.replicate (i - l.length) "" ++ [v]

/-- Header promotion (source lines 161-170): for every column index `i` below
the column count, `headers[i] = '' + columns[i][0]`; the header list is not
cleared first, and row 0 stays in the column data. -/
def promoteHeaders (columns : Columns) (headers : List String) : List String :=
  (List.range columns.length).foldl
    (fun hs i => jsSetStrAt hs i (jsUndefStr ((columns.getD i []).getD 0 none))) headers

/-- Instance state of a `CSVDataParser`: the column buffer, header list, the
sniffer's cached guesses, the decimal pattern string, and the constructor-time
merged options (`this.options`). -/
structure ParserState where
  columns : Columns := []
  headers : List String := []
  guessedItemDelimiter : Option String := none
  guessedDecimalPoint : Option String := none
  decimalRegexStr : Option String := none
  options : CSVOptions := defaultOptions
deriving DecidableEq, Repr

/-- Apply the state updates of a `guessDelimiter` call and record its return
value in `this.guessedItemDelimiter`, as `parse` does. -/
def applyGuess (st : ParserState) (g : GuessResult) : ParserState :=
  match g.decimal with
  | some (gdp, re) =>
    { st with guessedItemDelimiter := some g.guessed,
              guessedDecimalPoint := some gdp, decimalRegexStr := some re }
  | none => { st with guessedItemDelimiter := some g.guessed }

/-- Line splitting as performed by `parse`: normalize `\r\n` and then `\r` to
`\n`, and split on the configured line delimiter. -/
def normalizeSplit (lineDelimiter : Option String) (csv : String) : List (List Char) :=
  jsStringSplit (lineDelimiter.map String.data) (replaceCR (replaceCRLF csv.data))

/-- Start-row clamping of `parse`: `if (!startRow || startRow < 0) startRow = 0`
(an absent, zero, or negative start row becomes `0`). -/
def clampStartRow : Option Int → Nat
  | some v => if v ≤ 0 then 0 else v.toNat
  | none => 0

/-- End-row clamping of `parse`:
`if (!endRow || endRow >= lines.length) endRow = lines.length - 1` (an absent
or zero end row, or one at least the line count, becomes the last index; a
negative end row is falsy-false and not `>= lines.length`, so it survives and
later empties the row loop). -/
def clampEndRow (v : Option Int) (len : Nat) : Int :=
  match v with
  | some v => if v = 0 ∨ (len : Int) ≤ v then (len : Int) - 1 else v
  | none => (len : Int) - 1

/-- The slice of lines visited by the row loop
`for (rowIt = startRow; rowIt <= endRow; rowIt++)`. -/
def rowWindow (lines : List (List Char)) (startRow : Nat) (endRow : Int) :
    List (List Char) :=
  if endRow < (startRow : Int) then []
  else (lines.drop startRow).take (endRow.toNat + 1 - startRow)

/-- `parse(options)` (source lines 102-173). The call-time options are merged
over `this.options` into `parserOptions`; the column buffer is reset; the
`beforeParse` hook transforms a truthy `csv`; the text is normalized and
split; the row window is clamped; the delimiter is sniffed only when
`parserOptions.itemDelimiter` is falsy; the row loop tokenizes the window;
finally a truthy `firstRowAsNames` promotes headers. The tokenizer itself
reads `this.options` (not `parserOptions`) for its delimiter and column
window, as the source does. -/
def parse (p : List Char → Bool) (beforeParse : Option (String → String))
    (state : ParserState) (options : CSVOptions) : ParserState :=
  let parserOptions := mergeOptions state.options options
  let state := { state with columns := [] }
  let csv :=
    if strTruthy parserOptions.csv then
      match beforeParse with
      | some f => some (f (parserOptions.csv.getD ""))
      | none => parserOptions.csv
    else parserOptions.csv
  let state :=
    if strTruthy csv then
      let lines := normalizeSplit parserOptions.lineDelimiter (csv.getD "")
      let startRow := clampStartRow parserOptions.startRow
      let endRow := clampEndRow parserOptions.endRow lines.length
      let state :=
        if strTruthy parserOptions.itemDelimiter then state
        else applyGuess state (guessDelimiter p state.options lines)
      { state with
        columns := rowsLoop state.options state.guessedItemDelimiter
          (rowWindow lines startRow endRow) 0 state.columns }
    else state
  if boolTruthy parserOptions.firstRowAsNames then
    { state with headers := promoteHeaders state.columns state.headers }
  else state

/-- Failures observable from `parse`: an exception raised by the `beforeParse`
hook (propagated unchanged), or a `TypeError` that JavaScript would raise on
an undefined-element access. The development proves the latter unreachable. -/
inductive JSError (ε : Type) where
  | hookError (e : ε)
  | typeError (msg : String)
deriving DecidableEq, Repr

/-- `push` with the implicit JavaScript failure point made explicit: the
assignment `columns[column][rowNumber] = token` would raise a `TypeError` if
`columns[column]` were still undefined after the length check. -/
def pushE (sc ec : Option Int) (row : Nat) (token : List Char)
    (actual column : Nat) (cols : Columns) :
    Except (JSError ε) (Nat × Nat × Columns) :=
  if gtStart sc actual || gtEnd actual ec then
    .ok (actual + 1, column, cols)
  else
    let cols := if cols.length < column + 1 then cols ++ [[]] else cols
    if column < cols.length then
      .ok (actual + 1, column + 1,
        cols.set column (jsSetArr (cols.getD column []) row (String.mk token)))
    else .error (.typeError "cannot set property of undefined")

/-- `rowScan` over `pushE`, propagating the explicit failure points. -/
def rowScanE (sc ec : Option Int) (delim : Option (List Char)) (row : Nat) :
    List Char → RowMode → List Char → Nat → Nat → Columns →
      Except (JSError ε) Columns
  | [], _, token, actual, column, cols =>
    match pushE (ε := ε) sc ec row token actual column cols with
    | .ok r => .ok r.2.2
    | .error e => .error e
  | c :: rest, .outer, token, actual, column, cols =>
    if c = '#' then
      match pushE (ε := ε) sc ec row token actual column cols with
      | .ok r => .ok r.2.2
      | .error e => .error e
    else if c = '"' then
      rowScanE sc ec delim row rest (.quoted (some '"')) token actual column cols
    else if delim = some [c] then
      match pushE (ε := ε) sc ec row token actual column cols with
      | .ok r => rowScanE sc ec delim row rest .outer [] r.1 r.2.1 r.2.2
      | .error e => .error e
    else rowScanE sc ec delim row rest .outer (token ++ [c]) actual column cols
  | c :: rest, .quoted cl, token, actual, column, cols =>
    if c = '"' ∧ cl ≠ some '"' ∧ rest.head? ≠ some '"' then
      rowScanE sc ec delim row rest .outer token actual column cols
    else
      rowScanE sc ec delim row rest (.quoted (some c))
        (if c ≠ '"' ∨ cl ≠ some '"' then token ++ [c] else token) actual column cols

/-- `parseCSVRow` over the explicit-failure scan. -/
def parseCSVRowE (options : CSVOptions) (guessedItemDelimiter : Option String)
    (columnStr : List Char) (rowNumber : Nat) (columns : Columns) :
    Except (JSError ε) Columns :=
  let itemDelimiter := (jsOrStr options.itemDelimiter guessedItemDelimiter).map String.data
  if (listTrim columnStr).length = 0 then .ok columns
  else if (listTrim columnStr).head? = some '#' then .ok columns
  else
    rowScanE options.startColumn options.endColumn itemDelimiter rowNumber
      columnStr .outer [] 0 0 columns

/-- The row loop of `parse` over the explicit-failure tokenizer. -/
def rowsLoopE (options : CSVOptions) (guessed : Option String) :
    List (List Char) → Nat → Columns → Except (JSError ε) Columns
  | [], _, cols => .ok cols
  | l :: rest, rowNumber, cols =>
    if l.head? = some '#' then rowsLoopE options guessed rest rowNumber cols
    else
      match parseCSVRowE (ε := ε) options guessed l rowNumber cols with
      | .ok cols => rowsLoopE options guessed rest (rowNumber + 1) cols
      | .error e => .error e

/-- `parse(options)` with a fallible `beforeParse` hook and the tokenizer's
explicit failure points: the hook is invoked unwrapped on a truthy `csv`
before any line splitting, and its failure aborts the parse. -/
def parseE (p : List Char → Bool)
    (beforeParse : Option (String → Except ε String))
    (state : ParserState) (options : CSVOptions) :
    Except (JSError ε) ParserState :=
  let parserOptions := mergeOptions state.options options
  let state := { state with columns := [] }
  let csvE : Except (JSError ε) (Option String) :=
    if strTruthy parserOptions.csv then
      match beforeParse with
      | some f =>
        match f (parserOptions.csv.getD "") with
        | .ok v => .ok (some v)
        | .error e => .error (JSError.hookError e)
      | none => .ok parserOptions.csv
    else .ok parserOptions.csv
  match csvE with
  | .error e => .error e
  | .ok csv =>
    let stateE : Except (JSError ε) ParserState :=
      if strTruthy csv then
        let lines := normalizeSplit parserOptions.lineDelimiter (csv.getD "")
        let startRow := clampStartRow parserOptions.startRow
        let endRow := clampEndRow parserOptions.endRow lines.length
        let state :=
          if strTruthy parserOptions.itemDelimiter then state
          else applyGuess state (guessDelimiter p state.options lines)
        match rowsLoopE (ε := ε) state.options state.guessedItemDelimiter
            (rowWindow lines startRow endRow) 0 state.columns with
        | .ok cols => .ok { state with columns := cols }
        | .error e => .error e
      else .ok state
    match stateE with
    | .error e => .error e
    | .ok state =>
      if boolTruthy parserOptions.firstRowAsNames then
        .ok { state with headers := promoteHeaders state.columns state.headers }
      else .ok state

example :
    (parse (fun _ => false) none { options := { defaultOptions with itemDelimiter := some "," } }
      { csv := some "a,b\n1,2", firstRowAsNames := some true }).headers = ["a", "b"] := by
  decide

example :
    (parse (fun _ => false) none { options := defaultOptions }
      { csv := some "a;b", itemDelimiter := some ";" }).columns = [[some "a;b"]] := by
  decide

/-! ### Lemmas about `listTrim` -/

theorem dropWhile_head_false {p : α → Bool} {l : List α} {a : α} {r : List α}
    (h : l.dropWhile p = a :: r) : p a = false := by
  induction l with
  | nil => simp [List.dropWhile] at h
  | cons c cs ih =>
    rw [List.dropWhile_cons] at h
    by_cases hc : p c
    · exact ih (by simpa [hc] using h)
    · simp only [hc, if_false] at h
      cases h
      simpa using hc

theorem dropWhile_append_last {p : α → Bool} (xs : List α) {a : α} (h : p a = false) :
    (xs ++ [a]).dropWhile p = xs.dropWhile p ++ [a] := by
  induction xs with
  | nil => simp [List.dropWhile, h]
  | cons c cs ih =>
    rw [List.cons_append, List.dropWhile_cons, List.dropWhile_cons]
    by_cases hc : p c <;> simp [hc, ih]

theorem listTrim_head (l : List Char) :
    (listTrim l).head? = (l.dropWhile jsWS).head? := by
  rcases h : l.dropWhile jsWS with _ | ⟨a, r⟩
  · simp [listTrim, h]
  · have ha : jsWS a = false := dropWhile_head_false h
    rw [listTrim, h]
    rw [show (a :: r).reverse = r.reverse ++ [a] by simp]
    rw [dropWhile_append_last _ ha]
    simp

theorem listTrim_eq_nil {l : List Char} :
    listTrim l = [] ↔ l.dropWhile jsWS = [] := by
  constructor
  · intro h
    rcases hd : l.dropWhile jsWS with _ | ⟨a, r⟩
    · rfl
    · have := listTrim_head l
      rw [h, hd] at this
      simp at this
  · intro h
    simp [listTrim, h]

theorem parseCSVRow_run (options : CSVOptions) (guessed : Option String)
    {l : List Char} (h1 : l.dropWhile jsWS ≠ [])
    (h2 : (l.dropWhile jsWS).head? ≠ some '#') (row : Nat) (cols : Columns) :
    parseCSVRow options guessed l row cols =
      rowScan options.startColumn options.endColumn
        ((jsOrStr options.itemDelimiter guessed).map String.data) row
        l .outer [] 0 0 cols := by
  rw [parseCSVRow]
  rw [if_neg, if_neg]
  · rwa [listTrim_head]
  · rw [List.length_eq_zero, listTrim_eq_nil]
    exact h1

/-! ### Run lemmas for the row scan -/

theorem rowScan_outer_run (sc ec : Option Int) (delim : Option (List Char)) (row : Nat) :
    ∀ (u rest token : List Char) (a col : Nat) (cols : Columns),
    (∀ c ∈ u, c ≠ '#' ∧ c ≠ '"' ∧ delim ≠ some [c]) →
    rowScan sc ec delim row (u ++ rest) .outer token a col cols
      = rowScan sc ec delim row rest .outer (token ++ u) a col cols := by
  intro u
  induction u with
  | nil => intro rest token a col cols _; simp
  | cons c u ih =>
    intro rest token a col cols hu
    obtain ⟨h1, h2, h3⟩ := hu c (by simp)
    rw [List.cons_append, rowScan, if_neg h1, if_neg h2, if_neg h3,
      ih rest (token ++ [c]) a col cols (fun x hx => hu x (by simp [hx]))]
    simp

/-- Lookbehind after scanning a run of characters: the run's last character
when the run is non-empty, otherwise the previous lookbehind. -/
def lastCl (u : List Char) (cl : Option Char) : Option Char :=
  match u.getLast? with
  | some a => some a
  | none => cl

theorem lastCl_cons (a : Char) (u : List Char) (cl : Option Char) :
    lastCl (a :: u) cl = lastCl u (some a) := by
  cases u with
  | nil => simp [lastCl]
  | cons b u =>
    rw [lastCl, lastCl]
    rcases h : (b :: u).getLast? with _ | x
    · rw [List.getLast?_eq_none_iff] at h
      cases h
    · rw [show (a :: b :: u).getLast? = some x by rw [List.getLast?_cons_cons, h]]

theorem lastCl_mem {u : List Char} {cl : Option Char} {a : Char}
    (hu : u ≠ []) (h : lastCl u cl = some a) : a ∈ u := by
  rw [lastCl] at h
  rcases hg : u.getLast? with _ | b
  · rw [List.getLast?_eq_none_iff] at hg
    exact absurd hg hu
  · rw [hg] at h
    cases h
    exact List.mem_of_mem_getLast? (by rw [hg]; rfl)

theorem rowScan_quoted_run (sc ec : Option Int) (delim : Option (List Char)) (row : Nat) :
    ∀ (u rest token : List Char) (cl : Option Char) (a col : Nat) (cols : Columns),
    (∀ c ∈ u, c ≠ '"') →
    rowScan sc ec delim row (u ++ rest) (.quoted cl) token a col cols
      = rowScan sc ec delim row rest (.quoted (lastCl u cl)) (token ++ u) a col cols := by
  intro u
  induction u with
  | nil => intro rest token cl a col cols _; simp [lastCl]
  | cons c u ih =>
    intro rest token cl a col cols hu
    have h1 : c ≠ '"' := hu c (by simp)
    rw [List.cons_append, rowScan, if_neg (by simp [h1]), if_pos (Or.inl h1),
      ih rest (token ++ [c]) (some c) a col cols (fun x hx => hu x (by simp [hx])),
      lastCl_cons]
    simp

theorem rowScan_outer_end (sc ec : Option Int) (delim : Option (List Char)) (row : Nat)
    (w token : List Char) (a col : Nat) (cols : Columns)
    (hw : ∀ c ∈ w, c ≠ '#' ∧ c ≠ '"' ∧ delim ≠ some [c]) :
    rowScan sc ec delim row w .outer token a col cols
      = (push sc ec row (token ++ w) a col cols).2.2 := by
  have h := rowScan_outer_run sc ec delim row w [] token a col cols hw
  simp only [List.append_nil] at h
  rw [h, rowScan]

/-! ### C1 -/

/-- C1: Quoted-field round trip. Tokenizing the line `"a,b",c` with item
delimiter `,` produces exactly the cells `a,b` and `c`. In general, for a
quoted field `"u""v"` whose content pieces `u` and `v` are non-empty and free
of quote, hash and delimiter characters, the doubled quote `""` collapses to
a single literal `"` in the cell text, and the bare closing quote — flanked
by the last character of `v` and the delimiter, both non-quotes — closes the
field, so the row `"u""v",w` yields exactly the cells `u"v` and `w`. -/
theorem c1_quoted_field_round_trip :
    (parseCSVRow { itemDelimiter := some "," } none "\"a,b\",c".data 0 []
      = [[some "a,b"], [some "c"]]) ∧
    ∀ (u v w : List Char), u ≠ [] → v ≠ [] →
    (∀ c ∈ u, c ≠ '"' ∧ c ≠ '#' ∧ c ≠ ',') →
    (∀ c ∈ v, c ≠ '"' ∧ c ≠ '#' ∧ c ≠ ',') →
    (∀ c ∈ w, c ≠ '"' ∧ c ≠ '#' ∧ c ≠ ',') →
    parseCSVRow { itemDelimiter := some "," } none
      ('"' :: (u ++ '"' :: '"' :: (v ++ '"' :: ',' :: w))) 0 []
      = [[some (String.mk (u ++ '"' :: v))], [some (String.mk w)]] := by
  refine ⟨by decide, ?_⟩
  intro u v w hu hv hpu hpv hpw
  have hws : jsWS '"' = false := by decide
  rw [parseCSVRow_run _ _ (by simp [List.dropWhile_cons, hws])
    (by simp [List.dropWhile_cons, hws]) 0 []]
  have hdelim : (jsOrStr ({ itemDelimiter := some "," } : CSVOptions).itemDelimiter none).map
      String.data = some [','] := by decide
  rw [hdelim]
  rw [rowScan, if_neg (by decide), if_pos rfl]
  rw [rowScan_quoted_run _ _ _ _ u _ _ _ _ _ _ (fun c hc => (hpu c hc).1)]
  obtain ⟨a, ha⟩ : ∃ a, u.getLast? = some a := by
    cases hg : u.getLast? with
    | none => exact absurd (List.getLast?_eq_none_iff.mp hg) hu
    | some a => exact ⟨a, rfl⟩
  have hacl : lastCl u (some '"') = some a := by rw [lastCl, ha]
  have hamem : a ∈ u := List.mem_of_mem_getLast? (by rw [ha]; rfl)
  have haq : a ≠ '"' := (hpu a hamem).1
  rw [hacl]
  rw [rowScan, if_neg (by simp), if_pos (by simp [haq])]
  rw [rowScan, if_neg (by simp), if_neg (by simp)]
  rw [rowScan_quoted_run _ _ _ _ v _ _ _ _ _ _ (fun c hc => (hpv c hc).1)]
  obtain ⟨b, hb⟩ : ∃ b, v.getLast? = some b := by
    cases hg : v.getLast? with
    | none => exact absurd (List.getLast?_eq_none_iff.mp hg) hv
    | some b => exact ⟨b, rfl⟩
  have hbcl : lastCl v (some '"') = some b := by rw [lastCl, hb]
  have hbmem : b ∈ v := List.mem_of_mem_getLast? (by rw [hb]; rfl)
  have hbq : b ≠ '"' := (hpv b hbmem).1
  rw [hbcl]
  rw [rowScan, if_pos (by simp [hbq])]
  rw [rowScan, if_neg (by decide), if_neg (by decide), if_pos rfl]
  rw [rowScan_outer_end _ _ _ _ w _ _ _ _
    (fun c hc => ⟨(hpw c hc).2.1, (hpw c hc).1, by simpa using Ne.symm (hpw c hc).2.2⟩)]
  simp [push, gtStart, gtEnd, jsSetArr, List.getD]

/-- Witness for C1 at `u = "a"`, `v = "b"`, `w = "c"`: the line `"a""b",c`
yields the cells `a"b` and `c`. -/
theorem c1_witness :
    (['a'] : List Char) ≠ [] ∧
    parseCSVRow { itemDelimiter := some "," } none
      ('"' :: (['a'] ++ '"' :: '"' :: (['b'] ++ '"' :: ',' :: ['c']))) 0 []
      = [[some (String.mk (['a'] ++ '"' :: ['b']))], [some (String.mk ['c'])]] :=
  ⟨by decide, c1_quoted_field_round_trip.2 ['a'] ['b'] ['c'] (by decide) (by decide)
    (by decide) (by decide) (by decide)⟩

/-! ### C3 -/

theorem dropWhile_plain_comma {v : List Char} (l : List Char)
    (hv : ∀ c ∈ v, c ≠ '#') :
    (v ++ ',' :: l).dropWhile jsWS ≠ [] ∧
    ((v ++ ',' :: l).dropWhile jsWS).head? ≠ some '#' := by
  induction v with
  | nil =>
    rw [List.nil_append, List.dropWhile_cons]
    simp [show jsWS ',' = false from by decide, show (',' : Char) ≠ '#' from by decide]
  | cons c v ih =>
    rw [List.cons_append, List.dropWhile_cons]
    by_cases hc : jsWS c
    · simpa [hc] using ih (fun x hx => hv x (by simp [hx]))
    · have : c ≠ '#' := hv c (by simp)
      simp [hc, this]

/-- C3 counterexample: tokenizing `value,#comment` with delimiter `,` writes
two cells for the row — `value` and the empty string — because reaching `#`
flushes the pending (empty) token before terminating the row; so the row does
not consist of exactly the single cell `value`. -/
theorem c3_counterexample :
    parseCSVRow { itemDelimiter := some "," } none "value,#comment".data 0 []
      = [[some "value"], [some ""]] ∧
    parseCSVRow { itemDelimiter := some "," } none "value,#comment".data 0 []
      ≠ [[some "value"]] := by
  constructor <;> decide

/-- C3 amended: for a row `v,#…` (with `v` free of quote, hash and delimiter
characters) tokenized with item delimiter `,`, nothing after the `#` produces
a cell, and exactly two cells are written: `v` at column 0, and — because the
`#` handler flushes the pending, at that point empty, token — the empty
string at column 1. -/
theorem c3_trailing_comment :
    ∀ (v rest : List Char),
    (∀ c ∈ v, c ≠ '"' ∧ c ≠ '#' ∧ c ≠ ',') →
    parseCSVRow { itemDelimiter := some "," } none (v ++ ',' :: '#' :: rest) 0 []
      = [[some (String.mk v)], [some ""]] := by
  intro v rest hv
  obtain ⟨h1, h2⟩ := dropWhile_plain_comma ('#' :: rest) (fun c hc => (hv c hc).2.1)
  rw [parseCSVRow_run _ _ h1 h2 0 []]
  have hdelim : (jsOrStr ({ itemDelimiter := some "," } : CSVOptions).itemDelimiter none).map
      String.data = some [','] := by decide
  rw [hdelim]
  rw [rowScan_outer_run _ _ _ _ v _ _ _ _ _
    (fun c hc => ⟨(hv c hc).2.1, (hv c hc).1, by simpa using Ne.symm (hv c hc).2.2⟩)]
  rw [rowScan, if_neg (by decide), if_neg (by decide), if_pos rfl]
  rw [rowScan, if_pos rfl]
  simp [push, gtStart, gtEnd, jsSetArr, List.getD]

/-- Witness for C3's amended theorem at `v = "value"`, rest `comment`. -/
theorem c3_trailing_comment_witness :
    (∀ c ∈ ("value".data : List Char), c ≠ '"' ∧ c ≠ '#' ∧ c ≠ ',') ∧
    parseCSVRow { itemDelimiter := some "," } none
      ("value".data ++ ',' :: '#' :: "comment".data) 0 []
      = [[some (String.mk "value".data)], [some ""]] :=
  ⟨by decide, c3_trailing_comment "value".data "comment".data (by decide)⟩

/-! ### C8 -/

/-- Options with the column window `startColumn = 1`, `endColumn = 1` used by
the windowing claim. -/
def windowOptions : CSVOptions := { itemDelimiter := some ",", startColumn := some 1, endColumn := some 1 }

/-- C8: Column windowing. For a three-field row `a,b,c` (fields free of
quote, hash and delimiter characters) tokenized with `startColumn = 1` and
`endColumn = 1`, exactly one output column is retained, holding the field at
actual column index 1 (`b`) at the given row index; the out-of-window fields
`a` and `c` are discarded but still advance the actual-column counter, which
is what places `b` — and nothing else — in the window. -/
theorem c8_column_window :
    ∀ (a b c : List Char) (r : Nat),
    (∀ x ∈ a, x ≠ '"' ∧ x ≠ '#' ∧ x ≠ ',') →
    (∀ x ∈ b, x ≠ '"' ∧ x ≠ '#' ∧ x ≠ ',') →
    (∀ x ∈ c, x ≠ '"' ∧ x ≠ '#' ∧ x ≠ ',') →
    parseCSVRow windowOptions none (a ++ ',' :: (b ++ ',' :: c)) r []
      = [List.replicate r none ++ [some (String.mk b)]] := by
  intro a b c r ha hb hc
  obtain ⟨h1, h2⟩ := dropWhile_plain_comma (b ++ ',' :: c) (fun x hx => (ha x hx).2.1)
  rw [parseCSVRow_run _ _ h1 h2 r []]
  have hdelim : (jsOrStr windowOptions.itemDelimiter none).map String.data
      = some [','] := by decide
  rw [hdelim]
  rw [rowScan_outer_run _ _ _ _ a _ _ _ _ _
    (fun x hx => ⟨(ha x hx).2.1, (ha x hx).1, by simpa using Ne.symm (ha x hx).2.2⟩)]
  rw [rowScan, if_neg (by decide), if_neg (by decide), if_pos rfl]
  rw [rowScan_outer_run _ _ _ _ b _ _ _ _ _
    (fun x hx => ⟨(hb x hx).2.1, (hb x hx).1, by simpa using Ne.symm (hb x hx).2.2⟩)]
  rw [rowScan, if_neg (by decide), if_neg (by decide), if_pos rfl]
  rw [rowScan_outer_end _ _ _ _ c _ _ _ _
    (fun x hx => ⟨(hc x hx).2.1, (hc x hx).1, by simpa using Ne.symm (hc x hx).2.2⟩)]
  simp [windowOptions, push, gtStart, gtEnd, jsSetArr, List.getD]

/-- Witness for C8 at the row `a,b,c`, row index 0. -/
theorem c8_column_window_witness :
    (∀ x ∈ (['a'] : List Char), x ≠ '"' ∧ x ≠ '#' ∧ x ≠ ',') ∧
    parseCSVRow windowOptions none (['a'] ++ ',' :: (['b'] ++ ',' :: ['c'])) 0 []
      = [List.replicate 0 none ++ [some (String.mk ['b'])]] :=
  ⟨by decide, c8_column_window ['a'] ['b'] ['c'] 0 (by decide) (by decide) (by decide)⟩

/-! ### C2 -/

/-- C2: Delimiter decision of the sniffer. For every line sequence (and every
token predicate, see the header note), `guessDelimiter` returns `;` exactly
when the semicolon counter strictly exceeds the comma counter, returns `,`
when the comma counter strictly exceeds the semicolon counter, returns `,` on
a tie — in particular on the empty line sequence, whose counters are all
zero — and never returns the tab delimiter even though tab is counted. -/
theorem c2_delimiter_decision :
    ∀ (p : List Char → Bool) (opts : CSVOptions) (lines : List (List Char)),
    ((sniffLines p lines {}).potComma < (sniffLines p lines {}).potSemi →
      (guessDelimiter p opts lines).guessed = ";") ∧
    ((sniffLines p lines {}).potSemi < (sniffLines p lines {}).potComma →
      (guessDelimiter p opts lines).guessed = ",") ∧
    ((sniffLines p lines {}).potSemi = (sniffLines p lines {}).potComma →
      (guessDelimiter p opts lines).guessed = ",") ∧
    (guessDelimiter p opts lines).guessed ≠ "\t" ∧
    (lines = [] → (guessDelimiter p opts lines).guessed = ",") := by
  intro p opts lines
  have hg : (guessDelimiter p opts lines).guessed
      = (if (sniffLines p lines {}).potSemi > (sniffLines p lines {}).potComma then ";"
        else if (sniffLines p lines {}).potComma > (sniffLines p lines {}).potSemi then ","
        else ",") := rfl
  refine ⟨?_, ?_, ?_, ?_, ?_⟩
  · intro h; rw [hg, if_pos h]
  · intro h; rw [hg, if_neg (by omega), if_pos h]
  · intro h; rw [hg, if_neg (by omega), if_neg (by omega)]
  · rw [hg]; split_ifs <;> decide
  · intro h
    subst h
    rw [hg]
    simp [sniffLines]

/-- Witness for C2 on the single line `a;b;c` with an always-true predicate:
the semicolon counter exceeds the comma counter and `;` is returned. -/
theorem c2_witness :
    (sniffLines (fun _ => true) ["a;b;c".data] {}).potComma
      < (sniffLines (fun _ => true) ["a;b;c".data] {}).potSemi ∧
    (guessDelimiter (fun _ => true) {} ["a;b;c".data]).guessed = ";" :=
  ⟨by decide, (c2_delimiter_decision (fun _ => true) {} ["a;b;c".data]).1 (by decide)⟩

/-! ### C7 -/

/-- C7: Decimal-separator inference. Whenever the configured decimal point of
`this.options` is falsy (absent or empty), `guessDelimiter` records `.` as
the guessed separator exactly when the global period count strictly exceeds
the global comma count and `,` otherwise, and the decimal pattern string
`^(-?[0-9]+)<sep>([0-9]+)$` is built from the caller-supplied configured
decimal point — an absent one is concatenated as `undefined` — rather than
from the just-computed guess. -/
theorem c7_decimal_inference :
    ∀ (p : List Char → Bool) (opts : CSVOptions) (lines : List (List Char)),
    strTruthy opts.decimalPoint = false →
    (guessDelimiter p opts lines).decimal =
      some ((if (sniffLines p lines {}).commas < (sniffLines p lines {}).points
          then "." else ","),
        "^(-?[0-9]+)" ++ jsUndefStr opts.decimalPoint ++ "([0-9]+)$") := by
  intro p opts lines h
  show (if strTruthy opts.decimalPoint then none else _) = _
  rw [if_neg (by rw [h]; exact Bool.false_ne_true)]

/-- Witness for C7 on the empty line sequence with absent decimal point: the
tie gives `,` and the pattern embeds the placeholder `undefined`. -/
theorem c7_witness :
    strTruthy ({} : CSVOptions).decimalPoint = false ∧
    (guessDelimiter (fun _ => true) {} ([] : List (List Char))).decimal =
      some ((if (sniffLines (fun _ => true) [] {}).commas
          < (sniffLines (fun _ => true) [] {}).points then "." else ","),
        "^(-?[0-9]+)" ++ jsUndefStr ({} : CSVOptions).decimalPoint ++ "([0-9]+)$") :=
  ⟨by decide, c7_decimal_inference (fun _ => true) {} [] (by decide)⟩

/-! ### C10 -/

/-- Observable cell access: the text at row `r` of column `c`, `none` when
that index was never written. -/
def getCell (cols : Columns) (c r : Nat) : Option String :=
  ((cols[c]?.getD [])[r]?).getD none

theorem jsSetArr_get_lt {l : List (Option String)} {r row : Nat} (v : String)
    (h : r < row) : ((jsSetArr l row v)[r]?).getD none = (l[r]?).getD none := by
  rw [jsSetArr]
  split
  · rw [List.getElem?_set_ne (by omega)]
  · rename_i hrow
    push_neg at hrow
    by_cases hr : r < l.length
    · rw [List.getElem?_append_left (by simp; omega), List.getElem?_append_left hr]
    · push_neg at hr
      rw [List.getElem?_eq_none_iff.mpr hr,
        List.getElem?_append_left (by simp; omega),
        List.getElem?_append_right hr, List.getElem?_replicate_of_lt (by omega)]
      rfl

theorem getCell_append_empty (cols : Columns) (c r : Nat) :
    getCell (cols ++ [[]]) c r = getCell cols c r := by
  rw [getCell, getCell]
  by_cases h : c < cols.length
  · rw [List.getElem?_append_left h]
  · push_neg at h
    rw [List.getElem?_eq_none_iff.mpr h]
    by_cases h2 : c = cols.length
    · subst h2
      rw [List.getElem?_append_right (le_refl _)]
      simp
    · have hlen : (cols ++ [[]] : Columns).length ≤ c := by
        simp only [List.length_append, List.length_cons, List.length_nil]
        omega
      rw [List.getElem?_eq_none_iff.mpr hlen]

theorem getCell_push_lt (sc ec : Option Int) (row : Nat) (token : List Char)
    (a col : Nat) (cols : Columns) {c r : Nat} (h : r < row) :
    getCell (push sc ec row token a col cols).2.2 c r = getCell cols c r := by
  rw [push]
  split
  · rfl
  · dsimp only
    set cols' := if cols.length < col + 1 then cols ++ [[]] else cols with hc'
    have hbase : getCell cols' c r = getCell cols c r := by
      rw [hc']
      split
      · exact getCell_append_empty cols c r
      · rfl
    by_cases hc : c = col
    · subst hc
      by_cases hlen : c < cols'.length
      · rw [getCell, List.getElem?_set_self hlen]
        show ((jsSetArr (cols'.getD c []) row (String.mk token))[r]?).getD none
          = getCell cols c r
        rw [jsSetArr_get_lt _ h, List.getD_eq_getElem?_getD, ← getCell]
        exact hbase
      · push_neg at hlen
        rw [List.set_eq_of_length_le hlen]
        exact hbase
    · rw [getCell, List.getElem?_set_ne (Ne.symm hc), ← getCell]
      exact hbase

theorem rowScan_getCell_lt (sc ec : Option Int) (delim : Option (List Char))
    (row : Nat) {c r : Nat} (h : r < row) :
    ∀ (l : List Char) (mode : RowMode) (token : List Char) (a col : Nat)
      (cols : Columns),
    getCell (rowScan sc ec delim row l mode token a col cols) c r
      = getCell cols c r := by
  intro l
  induction l with
  | nil =>
    intro mode token a col cols
    rw [rowScan]
    exact getCell_push_lt sc ec row token a col cols h
  | cons ch rest ih =>
    intro mode token a col cols
    cases mode with
    | outer =>
      rw [rowScan]
      split_ifs with h1 h2 h3
      · exact getCell_push_lt sc ec row token a col cols h
      · exact ih _ _ _ _ _
      · dsimp only
        rw [ih _ _ _ _ _]
        exact getCell_push_lt sc ec row token a col cols h
      · exact ih _ _ _ _ _
    | quoted cl =>
      rw [rowScan]
      split_ifs <;> exact ih _ _ _ _ _

theorem parseCSVRow_getCell_lt (options : CSVOptions) (g : Option String)
    (l : List Char) (row : Nat) (cols : Columns) {c r : Nat} (h : r < row) :
    getCell (parseCSVRow options g l row cols) c r = getCell cols c r := by
  rw [parseCSVRow]
  split_ifs
  · rfl
  · rfl
  · exact rowScan_getCell_lt _ _ _ _ h _ _ _ _ _ _

theorem rowsLoop_getCell_lt (options : CSVOptions) (g : Option String) :
    ∀ (ls : List (List Char)) (n : Nat) (cols : Columns) (c r : Nat), r < n →
    getCell (rowsLoop options g ls n cols) c r = getCell cols c r := by
  intro ls
  induction ls with
  | nil => intro n cols c r _; rfl
  | cons l rest ih =>
    intro n cols c r hr
    rw [rowsLoop]
    split_ifs with h1
    · exact ih n cols c r hr
    · rw [ih (n + 1) _ c r (by omega)]
      exact parseCSVRow_getCell_lt options g l n cols hr

/-- C10: Comment and blank lines affect row numbering asymmetrically.
(1) A line whose character at index 0 is `#` bumps the comment offset, so the
rows tokenized after it shift up by one index and leave no gap: deleting such
a line from anywhere in the window yields the same column buffer.
(2) A skipped line — one that is whitespace-only, or whose first
non-whitespace character is `#` behind leading whitespace — writes nothing
(the tokenizer returns the buffer unchanged), yet when its index-0 character
is not `#` the row loop still advances the row number past it, so its row
index is consumed; and (3) the loop only ever writes at row indices at least
its current row number, so the consumed index stays unset in every column. -/
theorem c10_comment_blank_asymmetry :
    (∀ (opts : CSVOptions) (g : Option String) (pre post : List (List Char))
      (l : List Char) (n : Nat) (cols : Columns), l.head? = some '#' →
      rowsLoop opts g (pre ++ l :: post) n cols = rowsLoop opts g (pre ++ post) n cols) ∧
    (∀ (opts : CSVOptions) (g : Option String) (l : List Char),
      (l.dropWhile jsWS = [] ∨ (l.dropWhile jsWS).head? = some '#') →
      (∀ (row : Nat) (cols : Columns), parseCSVRow opts g l row cols = cols) ∧
      (l.head? ≠ some '#' →
        ∀ (rest : List (List Char)) (n : Nat) (cols : Columns),
        rowsLoop opts g (l :: rest) n cols = rowsLoop opts g rest (n + 1) cols)) ∧
    (∀ (opts : CSVOptions) (g : Option String) (ls : List (List Char))
      (n : Nat) (cols : Columns) (c r : Nat), r < n →
      getCell (rowsLoop opts g ls n cols) c r = getCell cols c r) := by
  have hskip : ∀ (opts : CSVOptions) (g : Option String) (l : List Char),
      (l.dropWhile jsWS = [] ∨ (l.dropWhile jsWS).head? = some '#') →
      ∀ (row : Nat) (cols : Columns), parseCSVRow opts g l row cols = cols := by
    intro opts g l hl row cols
    rw [parseCSVRow]
    rcases hl with hl | hl
    · rw [if_pos]
      rw [List.length_eq_zero, listTrim_eq_nil]
      exact hl
    · by_cases he : listTrim l = []
      · rw [if_pos (by rw [List.length_eq_zero]; exact he)]
      · rw [if_neg (by rw [List.length_eq_zero]; exact he), if_pos]
        rw [listTrim_head]
        exact hl
  refine ⟨?_, ?_, ?_⟩
  · intro opts g pre post l n cols hl
    induction pre generalizing n cols with
    | nil =>
      rw [List.nil_append, List.nil_append, rowsLoop, if_pos hl]
    | cons q pre ih =>
      rw [List.cons_append, List.cons_append, rowsLoop, rowsLoop]
      by_cases hq : q.head? = some '#'
      · rw [if_pos hq, if_pos hq, ih]
      · rw [if_neg hq, if_neg hq, ih]
  · intro opts g l hl
    refine ⟨hskip opts g l hl, ?_⟩
    intro hhead rest n cols
    rw [rowsLoop, if_neg hhead, hskip opts g l hl]
  · intro opts g ls n cols c r hr
    exact rowsLoop_getCell_lt opts g ls n cols c r hr

/-- Witness for C10: an index-0 `#` line (`#x`) collapses out of the loop; an
indented comment line (` #x`) is skipped by the tokenizer; and a loop started
at row 1 never touches row 0. -/
theorem c10_witness :
    (("#x".data : List Char).head? = some '#' ∧
      rowsLoop { itemDelimiter := some "," } none ([] ++ "#x".data :: ["a".data]) 0 []
        = rowsLoop { itemDelimiter := some "," } none ([] ++ ["a".data]) 0 []) ∧
    ((" #x".data.dropWhile jsWS = [] ∨ (" #x".data.dropWhile jsWS).head? = some '#') ∧
      parseCSVRow { itemDelimiter := some "," } none " #x".data 0 [] = []) ∧
    ((0 : Nat) < 1 ∧
      getCell (rowsLoop { itemDelimiter := some "," } none ["a".data] 1 []) 0 0
        = getCell [] 0 0) :=
  ⟨⟨by decide, c10_comment_blank_asymmetry.1 _ none [] ["a".data] "#x".data 0 [] (by decide)⟩,
    ⟨by decide, (c10_comment_blank_asymmetry.2.1 _ none " #x".data (by decide)).1 0 []⟩,
    ⟨by decide, c10_comment_blank_asymmetry.2.2 _ none ["a".data] 1 [] 0 0 (by decide)⟩⟩

/-! ### C4 -/

theorem mergeOptions_set_startRow (b co : CSVOptions) (v : Option Int) :
    mergeOptions b { co with startRow := v }
      = { mergeOptions b co with startRow := mergeField v b.startRow } := by
  simp [mergeOptions, mergeField]

theorem mergeOptions_set_endRow (b co : CSVOptions) (v : Option Int) :
    mergeOptions b { co with endRow := v }
      = { mergeOptions b co with endRow := mergeField v b.endRow } := by
  simp [mergeOptions, mergeField]

theorem rowWindow_natCast (lines : List (List Char)) (s : Nat) (k : Nat) :
    rowWindow lines s (k : Int) = (lines.drop s).take (k + 1 - s) := by
  rw [rowWindow]
  split
  · rename_i hlt
    have : k < s := by exact_mod_cast hlt
    rw [show k + 1 - s = 0 by omega, List.take_zero]
  · rw [Int.toNat_ofNat]

/-- The line sequence that `parse` derives from a merged option record when
the hook is absent: normalize and split the configured csv text. -/
def linesOf (o : CSVOptions) : List (List Char) :=
  normalizeSplit o.lineDelimiter (o.csv.getD "")


/-- C4 counterexample: with two lines `a` and `b` and a configured in-range
end row of 0, the claim demands coverage of exactly line 0 (columns
`[[a]]`), but `!endRow` is true for 0, so the end row is clamped to the last
line index and both lines are tokenized. -/
theorem c4_counterexample :
    (parse (fun _ => false) none { options := { defaultOptions with itemDelimiter := some "," } }
      { csv := some "a\nb", endRow := some 0 }).columns = [[some "a", some "b"]] ∧
    (parse (fun _ => false) none { options := { defaultOptions with itemDelimiter := some "," } }
      { csv := some "a\nb", endRow := some 0 }).columns ≠ [[some "a"]] := by
  constructor <;> decide

/-- C4 amended: start row defaults to 0 when absent, zero or negative; end
row defaults to the last line index when absent, when zero, or when at least
the line count (a configured end row of 0 is falsy and treated exactly like
an absent one); and for every configured end row `k` with `1 ≤ k <` the line
count (zero is excluded — see the counterexample), with an explicit item
delimiter so no sniffing intervenes, tokenization covers exactly the lines
from the clamped start row through `k`. -/
theorem c4_amended :
    ∀ (p : List Char → Bool) (st : ParserState) (co : CSVOptions),
    (∀ v : Int, v ≤ 0 →
      parse p none st { co with startRow := some v }
        = parse p none st { co with startRow := some 0 }) ∧
    ((mergeOptions st.options co).startRow = none →
      parse p none st co = parse p none st { co with startRow := some 0 }) ∧
    (∀ k : Int, (k = 0 ∨ ((linesOf (mergeOptions st.options co)).length : Int) ≤ k) →
      parse p none st { co with endRow := some k }
        = parse p none st { co with endRow := some (((linesOf (mergeOptions st.options co)).length : Int) - 1) }) ∧
    ((mergeOptions st.options co).endRow = none →
      parse p none st co
        = parse p none st { co with endRow := some (((linesOf (mergeOptions st.options co)).length : Int) - 1) }) ∧
    (∀ k : Nat,
      strTruthy (mergeOptions st.options co).csv = true →
      strTruthy (mergeOptions st.options co).itemDelimiter = true →
      1 ≤ k → k < (linesOf (mergeOptions st.options co)).length →
      (parse p none st { co with endRow := some (k : Int) }).columns
        = rowsLoop st.options st.guessedItemDelimiter
            (((linesOf (mergeOptions st.options co)).drop
                (clampStartRow (mergeOptions st.options co).startRow)).take
              (k + 1 - clampStartRow (mergeOptions st.options co).startRow)) 0 []) := by
  intro p st co
  refine ⟨?_, ?_, ?_, ?_, ?_⟩
  · intro v hv
    simp only [parse, mergeOptions_set_startRow, mergeField, ite_self]
    rw [show clampStartRow (some v) = clampStartRow (some 0) from by
      simp [clampStartRow, hv]]
  · intro hnone
    simp only [parse, mergeOptions_set_startRow, mergeField, ite_self, hnone]
    rw [show clampStartRow none = clampStartRow (some 0) from by simp [clampStartRow]]
  · intro k hk
    simp only [linesOf] at hk
    simp only [parse, mergeOptions_set_endRow, mergeField, ite_self]
    rw [show clampEndRow (some k)
          (normalizeSplit (mergeOptions st.options co).lineDelimiter
            (((mergeOptions st.options co).csv).getD "")).length
        = clampEndRow (some (((normalizeSplit (mergeOptions st.options co).lineDelimiter
              (((mergeOptions st.options co).csv).getD "")).length : Int) - 1))
          (normalizeSplit (mergeOptions st.options co).lineDelimiter
            (((mergeOptions st.options co).csv).getD "")).length from by
      simp only [clampEndRow]
      rcases hk with hk | hk
      · rw [if_pos (Or.inl hk)]
        split
        · rfl
        · rfl
      · rw [if_pos (Or.inr hk)]
        split
        · rfl
        · rfl]
    rfl
  · intro hnone
    simp only [linesOf]
    simp only [parse, mergeOptions_set_endRow, mergeField, ite_self, hnone]
    rw [show clampEndRow none
          (normalizeSplit (mergeOptions st.options co).lineDelimiter
            (((mergeOptions st.options co).csv).getD "")).length
        = clampEndRow (some (((normalizeSplit (mergeOptions st.options co).lineDelimiter
              (((mergeOptions st.options co).csv).getD "")).length : Int) - 1))
          (normalizeSplit (mergeOptions st.options co).lineDelimiter
            (((mergeOptions st.options co).csv).getD "")).length from by
      simp only [clampEndRow]
      split
      · rfl
      · rfl]
  · intro k hcsv hid h1 h2
    simp only [linesOf] at h2 ⊢
    simp only [parse, mergeOptions_set_endRow, mergeField, ite_self, hcsv, hid,
      if_true, eq_self_iff_true]
    rw [show clampEndRow (some (k : Int))
          (normalizeSplit (mergeOptions st.options co).lineDelimiter
            (((mergeOptions st.options co).csv).getD "")).length
        = ((k : Int)) from by
      simp only [clampEndRow]
      rw [if_neg]
      push_neg
      refine ⟨by exact_mod_cast by omega, ?_⟩
      exact_mod_cast h2]
    rw [rowWindow_natCast]
    simp only [apply_ite ParserState.columns, ite_self]

/-- Witness for C4 at concrete inputs: a negative start row behaves like 0;
end row 0 behaves like the last index; and with lines `a`, `b`, `c` and end
row 1 the tokenized window is exactly lines 0-1. -/
theorem c4_witness :
    ((-2 : Int) ≤ 0 ∧
      parse (fun _ => false) none { options := { defaultOptions with itemDelimiter := some "," } }
          { csv := some "a\nb", startRow := some (-2) }
        = parse (fun _ => false) none { options := { defaultOptions with itemDelimiter := some "," } }
          { csv := some "a\nb", startRow := some 0 }) ∧
    ((1 : Nat) ≤ 1 ∧
      (parse (fun _ => false) none { options := { defaultOptions with itemDelimiter := some "," } }
          { csv := some "a\nb\nc", endRow := some (1 : Int) }).columns
        = rowsLoop { defaultOptions with itemDelimiter := some "," } none
            (((linesOf (mergeOptions { defaultOptions with itemDelimiter := some "," } { csv := some "a\nb\nc", endRow := some (1 : Int) })).drop (clampStartRow (mergeOptions { defaultOptions with itemDelimiter := some "," } { csv := some "a\nb\nc", endRow := some (1 : Int) }).startRow)).take
              (1 + 1 - clampStartRow (mergeOptions { defaultOptions with itemDelimiter := some "," } { csv := some "a\nb\nc", endRow := some (1 : Int) }).startRow)) 0 []) :=
  ⟨⟨by decide,
      (c4_amended (fun _ => false) { options := { defaultOptions with itemDelimiter := some "," } }
        { csv := some "a\nb", startRow := some (-2) }).1 (-2) (by decide)⟩,
    ⟨by decide,
      (c4_amended (fun _ => false) { options := { defaultOptions with itemDelimiter := some "," } }
        { csv := some "a\nb\nc", endRow := some (1 : Int) }).2.2.2.2 1 (by decide) (by decide)
        (by decide) (by decide)⟩⟩

/-! ### C5 -/

/-- C5 (code bug): a parser constructed without an item delimiter and handed
`itemDelimiter := ";"` only in the options passed to `parse` does skip the
sniffing step (the merged call options are truthy, and `guessedItemDelimiter`
stays unset), but the tokenizer resolves its delimiter from
`this.options.itemDelimiter || this.guessedItemDelimiter` — both undefined —
so the line `a;b` is never split: the parse yields the single cell `a;b`
where the claim requires the cells `a` and `b`. -/
theorem c5_parse_time_delimiter_ignored :
    (parse (fun _ => false) none { options := defaultOptions }
      { csv := some "a;b", itemDelimiter := some ";" }).columns = [[some "a;b"]] ∧
    (parse (fun _ => false) none { options := defaultOptions }
      { csv := some "a;b", itemDelimiter := some ";" }).columns ≠ [[some "a"], [some "b"]] ∧
    (parse (fun _ => false) none { options := defaultOptions }
      { csv := some "a;b", itemDelimiter := some ";" }).guessedItemDelimiter = none :=
  ⟨by decide, by decide, by decide⟩

/-! ### C6 -/

theorem applyGuess_options (st : ParserState) (g : GuessResult) :
    (applyGuess st g).options = st.options := by
  rw [applyGuess]
  split
  · rfl
  · rfl

theorem applyGuess_guessed (st : ParserState) (g : GuessResult) :
    (applyGuess st g).guessedItemDelimiter = some g.guessed := by
  rw [applyGuess]
  split
  · rfl
  · rfl

theorem applyGuess_columns (st : ParserState) (g : GuessResult) :
    (applyGuess st g).columns = st.columns := by
  rw [applyGuess]
  split
  · rfl
  · rfl

theorem applyGuess_headers (st : ParserState) (g : GuessResult) :
    (applyGuess st g).headers = st.headers := by
  rw [applyGuess]
  split
  · rfl
  · rfl

theorem jsSetStrAt_get_gt (l : List String) (j i : Nat) (v : String) (h : j < i) :
    (jsSetStrAt l j v)[i]? = l[i]? := by
  rw [jsSetStrAt]
  split
  · rw [List.getElem?_set_ne (by omega)]
  · rename_i hlen
    push_neg at hlen
    rw [List.getElem?_eq_none_iff.mpr
        (by simp only [List.length_append, List.length_replicate, List.length_cons,
          List.length_nil]; omega),
      List.getElem?_eq_none_iff.mpr (by omega)]

theorem promoteHeaders_get_ge (cols : Columns) (hs : List String) (i : Nat)
    (h : cols.length ≤ i) : (promoteHeaders cols hs)[i]? = hs[i]? := by
  rw [promoteHeaders]
  have key : ∀ (js : List Nat) (hs : List String), (∀ j ∈ js, j < i) →
      (js.foldl (fun hs j =>
        jsSetStrAt hs j (jsUndefStr ((cols.getD j []).getD 0 none))) hs)[i]?
        = hs[i]? := by
    intro js
    induction js with
    | nil => intro hs _; rfl
    | cons j js ih =>
      intro hs hj
      rw [List.foldl_cons, ih _ (fun x hx => hj x (by simp [hx])),
        jsSetStrAt_get_gt _ _ _ _ (hj j (by simp))]
  apply key
  intro j hj
  have := List.mem_range.mp hj
  omega

/-- C6 counterexample: two successive parses on one instance. The first call
(`a,b` with header promotion) leaves headers `["a", "b"]`; the second call
(`x` with header promotion) rebuilds the column buffer from scratch but only
overwrites header index 0, so the headers observable after the second call
are `["x", "b"]` — the name `b` is carried over from the first call, which
the claim forbids. -/
theorem c6_counterexample :
    (parse (fun _ => false) none
      (parse (fun _ => false) none { options := { defaultOptions with itemDelimiter := some "," } }
        { csv := some "a,b", firstRowAsNames := some true })
      { csv := some "x", firstRowAsNames := some true }).headers = ["x", "b"] ∧
    (parse (fun _ => false) none
      (parse (fun _ => false) none { options := { defaultOptions with itemDelimiter := some "," } }
        { csv := some "a,b", firstRowAsNames := some true })
      { csv := some "x", firstRowAsNames := some true }).headers ≠ ["x"] := by
  constructor <;> decide

/-- C6 amended: the Column Buffer is created fresh at the start of every
parse invocation — the columns produced by a call are independent of the
columns and headers left by earlier calls — but the Header List is not: it
persists across invocations, is returned untouched when header promotion is
off, and under promotion is only overwritten at indices below the new column
count, so entries at or beyond that count are carried over unchanged. -/
theorem c6_columns_fresh_headers_stale :
    ∀ (p : List Char → Bool) (bp : Option (String → String)) (st : ParserState)
      (co : CSVOptions),
    (∀ (cols0 : Columns) (hs0 : List String),
      (parse p bp { st with columns := cols0, headers := hs0 } co).columns
        = (parse p bp st co).columns) ∧
    (boolTruthy (mergeOptions st.options co).firstRowAsNames = false →
      (parse p bp st co).headers = st.headers) ∧
    (∀ i : Nat, (parse p bp st co).columns.length ≤ i →
      ((parse p bp st co).headers)[i]? = st.headers[i]?) := by
  intro p bp st co
  have hform : boolTruthy (mergeOptions st.options co).firstRowAsNames = true →
      (parse p bp st co).headers
        = promoteHeaders (parse p bp st co).columns st.headers := by
    intro hb
    simp only [parse, hb, if_true, apply_ite ParserState.headers,
      apply_ite ParserState.columns, applyGuess_headers, ite_self]
  refine ⟨?_, ?_, ?_⟩
  · intro cols0 hs0
    simp only [parse, apply_ite ParserState.columns, apply_ite ParserState.options,
      apply_ite ParserState.guessedItemDelimiter, applyGuess_options,
      applyGuess_guessed, applyGuess_columns]
  · intro h
    simp only [parse, h, Bool.false_eq_true, if_false, apply_ite ParserState.headers,
      applyGuess_headers, ite_self]
  · intro i hi
    rcases hb : boolTruthy (mergeOptions st.options co).firstRowAsNames with _ | _
    · rw [show (parse p bp st co).headers = st.headers from by
        simp only [parse, hb, Bool.false_eq_true, if_false,
          apply_ite ParserState.headers, applyGuess_headers, ite_self]]
    · rw [hform hb, promoteHeaders_get_ge _ _ _ hi]

/-- Witness for C6 at concrete inputs: stale columns and headers do not leak
into the second parse's columns; a parse without promotion keeps the old
headers; and the header entry at an index beyond the new column count is the
old entry. -/
theorem c6_witness :
    ((parse (fun _ => false) none
        { columns := [[some "z"]], headers := ["z"],
          options := { defaultOptions with itemDelimiter := some "," } }
        { csv := some "x" }).columns
      = (parse (fun _ => false) none
          { options := { defaultOptions with itemDelimiter := some "," } }
          { csv := some "x" }).columns) ∧
    (boolTruthy (mergeOptions { defaultOptions with itemDelimiter := some "," } ({ csv := some "x" } : CSVOptions)).firstRowAsNames = false ∧
      (parse (fun _ => false) none
        { headers := ["z"], options := { defaultOptions with itemDelimiter := some "," } }
        { csv := some "x" }).headers = ["z"]) :=
  ⟨by
      have h := (c6_columns_fresh_headers_stale (fun _ => false) none
        { options := { defaultOptions with itemDelimiter := some "," } }
        { csv := some "x" }).1 [[some "z"]] ["z"]
      exact h,
    ⟨by decide,
      (c6_columns_fresh_headers_stale (fun _ => false) none
        { headers := ["z"], options := { defaultOptions with itemDelimiter := some "," } }
        { csv := some "x" }).2.1 (by decide)⟩⟩

/-! ### C9 -/

theorem pushE_eq {ε : Type} (sc ec : Option Int) (row : Nat) (token : List Char)
    (a col : Nat) (cols : Columns) (h : col ≤ cols.length) :
    pushE (ε := ε) sc ec row token a col cols
      = .ok (push sc ec row token a col cols) := by
  by_cases hw : (gtStart sc a || gtEnd a ec) = true
  · simp [pushE, push, hw]
  · have hlt : col < (if cols.length < col + 1 then cols ++ [[]] else cols).length := by
      split
      · simp
        omega
      · omega
    simp [pushE, push, hw, hlt]

theorem push_inv (sc ec : Option Int) (row : Nat) (token : List Char)
    (a col : Nat) (cols : Columns) (h : col ≤ cols.length) :
    (push sc ec row token a col cols).2.1
      ≤ (push sc ec row token a col cols).2.2.length := by
  by_cases hw : (gtStart sc a || gtEnd a ec) = true
  · simpa [push, hw] using h
  · simp [push, hw]
    split
    · simp
      omega
    · omega

theorem rowScanE_eq {ε : Type} (sc ec : Option Int) (delim : Option (List Char))
    (row : Nat) :
    ∀ (l : List Char) (mode : RowMode) (token : List Char) (a col : Nat)
      (cols : Columns), col ≤ cols.length →
    rowScanE (ε := ε) sc ec delim row l mode token a col cols
      = .ok (rowScan sc ec delim row l mode token a col cols) := by
  intro l
  induction l with
  | nil =>
    intro mode token a col cols h
    rw [rowScanE, rowScan, pushE_eq _ _ _ _ _ _ _ h]
  | cons ch rest ih =>
    intro mode token a col cols h
    cases mode with
    | outer =>
      rw [rowScanE, rowScan]
      split_ifs with h1 h2 h3
      · rw [pushE_eq _ _ _ _ _ _ _ h]
      · exact ih _ _ _ _ _ h
      · rw [pushE_eq _ _ _ _ _ _ _ h]
        exact ih _ _ _ _ _ (push_inv _ _ _ _ _ _ _ h)
      · exact ih _ _ _ _ _ h
    | quoted cl =>
      rw [rowScanE, rowScan]
      split_ifs <;> exact ih _ _ _ _ _ h

theorem parseCSVRowE_eq {ε : Type} (options : CSVOptions) (g : Option String)
    (l : List Char) (row : Nat) (cols : Columns) :
    parseCSVRowE (ε := ε) options g l row cols
      = .ok (parseCSVRow options g l row cols) := by
  rw [parseCSVRowE, parseCSVRow]
  split_ifs
  · rfl
  · rfl
  · exact rowScanE_eq _ _ _ _ _ _ _ _ _ _ (Nat.zero_le _)

theorem rowsLoopE_eq {ε : Type} (options : CSVOptions) (g : Option String) :
    ∀ (ls : List (List Char)) (n : Nat) (cols : Columns),
    rowsLoopE (ε := ε) options g ls n cols = .ok (rowsLoop options g ls n cols) := by
  intro ls
  induction ls with
  | nil => intro n cols; rfl
  | cons l rest ih =>
    intro n cols
    rw [rowsLoopE, rowsLoop]
    split_ifs with h1
    · exact ih _ _
    · rw [parseCSVRowE_eq]
      exact ih _ _

/-- C9: No-raise graceful degradation. In the model with JavaScript's
implicit failure points made explicit (`parseE`, whose tokenizer raises a
`TypeError` if the column write ever targeted an undefined column, and whose
`beforeParse` hook may fail), the only failure that can propagate out of a
parse is the hook's: a hook error on a truthy csv aborts the parse — before
any line splitting or tokenization, by construction of the embedding — and
surfaces unchanged; with a succeeding hook, or no hook, `parseE` succeeds on
every input (unbalanced quotes and ragged rows included) and agrees with the
total `parse`, the Row Tokenizer's write staying in bounds and the Delimiter
Sniffer being a total scan. -/
theorem c9_failures_only_from_hook :
    ∀ (ε : Type) (p : List Char → Bool) (st : ParserState) (co : CSVOptions),
    (∀ (f : String → Except ε String) (e : ε),
      strTruthy (mergeOptions st.options co).csv = true →
      f ((mergeOptions st.options co).csv.getD "") = .error e →
      parseE p (some f) st co = .error (.hookError e)) ∧
    (∀ (f : String → Except ε String) (v : String),
      f ((mergeOptions st.options co).csv.getD "") = .ok v →
      parseE p (some f) st co = .ok (parse p (some (fun _ => v)) st co)) ∧
    (parseE (ε := ε) p none st co = .ok (parse p none st co)) := by
  intro ε p st co
  refine ⟨?_, ?_, ?_⟩
  · intro f e hc hf
    simp only [parseE, hc, if_true, hf]
  · intro f v hf
    by_cases hc : strTruthy (mergeOptions st.options co).csv = true <;>
      by_cases hv : strTruthy (some v) = true <;>
        by_cases hfr : boolTruthy (mergeOptions st.options co).firstRowAsNames = true <;>
          simp only [parseE, parse, hc, hv, hfr, hf, if_true, if_false,
            Bool.false_eq_true, rowsLoopE_eq, ite_self]
  · by_cases hc : strTruthy (mergeOptions st.options co).csv = true <;>
      by_cases hfr : boolTruthy (mergeOptions st.options co).firstRowAsNames = true <;>
        simp only [parseE, parse, hc, hfr, if_true, if_false,
          Bool.false_eq_true, rowsLoopE_eq, ite_self]

/-- Witness for C9: on csv `a`, a failing hook aborts the parse with its own
error, and a hook-free parse succeeds. -/
theorem c9_witness :
    (strTruthy (mergeOptions ({ options := defaultOptions } : ParserState).options ({ csv := some "a" } : CSVOptions)).csv = true ∧
      parseE (fun _ => false) (some (fun _ => Except.error "boom"))
        { options := defaultOptions } { csv := some "a" }
        = .error (.hookError "boom")) ∧
    parseE (ε := String) (fun _ => false) none { options := defaultOptions } { csv := some "a" }
      = .ok (parse (fun _ => false) none { options := defaultOptions } { csv := some "a" }) :=
  ⟨⟨by decide,
      (c9_failures_only_from_hook String (fun _ => false) { options := defaultOptions }
        { csv := some "a" }).1 (fun _ => Except.error "boom") "boom" (by decide) rfl⟩,
    (c9_failures_only_from_hook String (fun _ => false) { options := defaultOptions }
      { csv := some "a" }).2.2⟩
